import Mathlib

/-!
Verification of the `api` fluent HTTP client (`src/api.go`).

Shallow embedding conventions:
* Byte slices and request/response bodies are `String` (the code never does
  byte arithmetic; strings are a faithful stand-in for `[]byte`).
* Go `error` values are `Option Err` with `Err := String` (the message);
  `none` is Go's `nil` error.
* `url.Values` and `http.Header` (Go `map[string][]string`) are modelled as
  association lists `Values` with first-occurrence lookup; `Add` appends to
  the value list of a key, `Set` replaces it, `Del` removes the key.  Go map
  iteration order is unspecified, but every property proved here is
  per-key and hence order-independent.
* External collaborators are parameters: the network transport is a function
  `Request → Except Err Resp` (a stub transport), `url.Parse` results and
  JSON/XML marshal results are passed in already computed, and the random
  multipart boundary is a parameter `boundary`.
* Go panics (nil-pointer dereferences, explicit `panic`) are modelled by
  explicit `panicked` constructors so that crashing executions are
  distinguished from error returns.
* Fields of `Agent` that no claim observes are omitted from the record:
  `prefix`/path handling, cookies, basic-auth userinfo, `headerOut`, the
  unused `length` field, and the `conn` client (replaced by the transport
  parameter).
-/

abbrev Err := String

/-- Association-list model of Go `map[string][]string`
(`url.Values` / `http.Header`). -/
abbrev Values := List (String × List String)

/-- Map lookup: the value list of a key (`v[key]`); `[]` when absent. -/
def vGet : Values → String → List String
  | [], _ => []
  | (k', vs) :: rest, k => if k' = k then vs else vGet rest k

/-- `url.Values.Add` / `http.Header.Add`: append one value to a key's list. -/
def vAdd : Values → String → String → Values
  | [], k, x => [(k, [x])]
  | (k', vs) :: rest, k, x =>
    if k' = k then (k', vs ++ [x]) :: rest else (k', vs) :: vAdd rest k x

/-- `url.Values.Set` / `http.Header.Set`: replace a key's list by one value. -/
def vSet : Values → String → String → Values
  | [], k, x => [(k, [x])]
  | (k', vs) :: rest, k, x =>
    if k' = k then (k', [x]) :: rest else (k', vs) :: vSet rest k x

/-- `url.Values.Del` / `http.Header.Del`: `delete(v, key)`. -/
def vDel (v : Values) (k : String) : Values :=
  v.filter (fun p => !(p.1 = k : Bool))

/-- `http.Header.Get`: first value of the key, `""` when absent
(MIME key canonicalisation is not modelled; keys are compared literally). -/
def headerGet (v : Values) (k : String) : String :=
  (vGet v k).headD ""

/-- The keys of a Go map are pairwise distinct; association lists built by
`vAdd`/`vSet`/`vDel` from `[]` satisfy this. -/
def KeysNodup (v : Values) : Prop := (v.map Prod.fst).Nodup

instance (v : Values) : Decidable (KeysNodup v) := by
  unfold KeysNodup; infer_instance

/-- The method constants of `api.go`. -/
def GET : String := "GET"

def POST : String := "POST"

def PUT : String := "PUT"

def HEAD : String := "HEAD"

def DELETE : String := "DELETE"

def PATCH : String := "PATCH"

/-- The `types` tag-to-MIME table of `api.go` (a Go map; modelled as an
association list, lookup order irrelevant since keys are distinct). -/
def types : List (String × String) :=
  [("html", "text/html"),
   ("json", "application/json"),
   ("xml", "application/xml"),
   ("text", "text/plain"),
   ("urlencoded", "application/x-www-form-urlencoded"),
   ("form", "application/x-www-form-urlencoded"),
   ("form-data", "application/x-www-form-urlencoded"),
   ("multipart", "multipart/form-data")]

/-- Go `ct, ok := types[t]` (comma-ok lookup). -/
def typesFind (t : String) : Option String :=
  (types.find? (fun p => p.1 = t)).map (·.2)

/-- Go `types[t]` (plain map indexing: zero value `""` when missing). -/
def lookupType (t : String) : String :=
  (typesFind t).getD ""

/-- The `Cipher` interface of `api.go`. -/
structure Cipher where
  encrypt : String → Except Err String
  decrypt : String → Except Err String

/-- `File` of `api.go`: field name, base filename, raw data. -/
structure File where
  Filename : String
  Fieldname : String
  Data : String
deriving DecidableEq

/-- An HTTP response (`*http.Response`), restricted to the fields the code
reads: status code, status line, headers, body bytes. -/
structure Resp where
  statusCode : Nat
  status : String
  headers : Values
  body : String
deriving DecidableEq

/-- `ResponseProcessor` of `api.go`: Go returns `(*http.Response, error)`,
either of which may independently be nil. -/
abbrev RespProcessor := Resp → Option Resp × Option Err

/-- The wire request handed to the transport (`*http.Request`), restricted to
what the code sets: method, headers, merged query multimap, the bytes the
transport can actually read from `req.Body`, and the `ContentLength`
computed by `http.NewRequest` from the body reader at creation time. -/
structure Request where
  method : String
  headers : Values
  query : Values
  body : String
  contentLength : Nat
deriving DecidableEq

/-- The `Agent` builder of `api.go` (claim-irrelevant fields omitted, see
module comment).  `data` is the contents of the `io.Reader` body source
(`none` = nil reader), `uQuery` is the query multimap parsed from the
constructor URL (`u.Query()`). -/
structure Agent where
  uQuery : Values
  t : String
  m : String
  headerIn : Values
  query : Values
  files : List File
  data : Option String
  cipher : Option Cipher
  Error : Option Err
  debug : Bool
  processor : Option RespProcessor

/-- The part of a parsed `*url.URL` the claims observe: its query multimap. -/
structure ParsedURL where
  query : Values

/-- Result of a constructor: `url.Parse` failure makes `URL` call
`panic(err)`, so a constructor either panics or yields an Agent. -/
inductive CtorResult where
  | panicked (e : Err)
  | ok (a : Agent)

/-- The Agent literal built by `URL` on the success path (lines 75-87).
Note the slip kept faithfully: the tag field `t` is initialised to
`types["html"]`, i.e. the MIME value `"text/html"`, not the tag `"html"`;
and `Error: err` stores the (necessarily nil) parse error. -/
def URLok (u : ParsedURL) : Agent :=
  { uQuery := u.query
    t := lookupType "html"
    m := GET
    headerIn := []
    query := []
    files := []
    data := none
    cipher := none
    Error := none
    debug := false
    processor := none }

/-- `URL(aurl)` of `api.go`: `url.Parse` is external, so its result is the
input.  On parse failure the code executes `panic(err)` (line 72); the
`Error: err` field initialisation (line 85) is only reached when `err` is
nil. -/
def URL (r : Except Err ParsedURL) : CtorResult :=
  match r with
  | .error e => .panicked e
  | .ok u => .ok (URLok u)

/-- `Agent.Method`: `a.m = m`. -/
def Agent.Method (a : Agent) (m : String) : Agent := { a with m := m }

/-- `Get(aurl) = URL(aurl).Method(GET)`. -/
def Get (r : Except Err ParsedURL) : CtorResult :=
  match URL r with
  | .panicked e => .panicked e
  | .ok a => .ok (a.Method GET)

/-- `Post(aurl) = URL(aurl).Method(POST)`. -/
def Post (r : Except Err ParsedURL) : CtorResult :=
  match URL r with
  | .panicked e => .panicked e
  | .ok a => .ok (a.Method POST)

/-- `Agent.ContentType` (lines 225-230): kept exactly as written — when the
tag is in the table the looked-up MIME value is assigned to the METHOD
field `a.m` (`a.m = ct`), not to the tag field `a.t`. -/
def Agent.ContentType (a : Agent) (t : String) : Agent :=
  match typesFind t with
  | some ct => { a with m := ct }
  | none => a

/-- `Agent.QuerySet`: `a.query.Set(key, value)`. -/
def Agent.QuerySet (a : Agent) (key value : String) : Agent :=
  { a with query := vSet a.query key value }

/-- `Agent.QueryAdd`: `a.query.Add(key, value)`. -/
def Agent.QueryAdd (a : Agent) (key value : String) : Agent :=
  { a with query := vAdd a.query key value }

/-- `Agent.QueryDel`: `a.query.Del(key)` — it touches only the mutator map
`a.query`, never the URL's own query. -/
def Agent.QueryDel (a : Agent) (key : String) : Agent :=
  { a with query := vDel a.query key }

/-- `Agent.HeadSet`: `a.headerIn.Set(key, value)`. -/
def Agent.HeadSet (a : Agent) (key value : String) : Agent :=
  { a with headerIn := vSet a.headerIn key value }

/-- `Agent.Debug`: `a.debug = flag`. -/
def Agent.Debug (a : Agent) (flag : Bool) : Agent := { a with debug := flag }

/-- `Agent.SetCipher`: `a.cipher = cipher`. -/
def Agent.SetCipher (a : Agent) (c : Cipher) : Agent := { a with cipher := some c }

/-- `Agent.JSONData` (single-argument form): `JSONMarshal` is external, so
its result `(marshalled, merr)` is passed in.  Sets the body reader, the
error (unconditionally, as the code does) and the tag `"json"`. -/
def Agent.JSONData (a : Agent) (marshalled : String) (merr : Option Err) : Agent :=
  { a with data := some marshalled, Error := merr, t := "json" }

/-- `Agent.XMLData`: `xml.Marshal` is external, result passed in. -/
def Agent.XMLData (a : Agent) (marshalled : String) (merr : Option Err) : Agent :=
  { a with data := some marshalled, Error := merr, t := "xml" }

/-- `Agent.FormData`: `url.Values(form).Encode()` is external, the encoded
string is passed in.  Sets the tag `"form"` and never touches `Error`. -/
def Agent.FormData (a : Agent) (encoded : String) : Agent :=
  { a with data := some encoded, t := "form" }

/-- `Agent.FileData`: appends to the file list and sets the tag
`"multipart"`. -/
def Agent.FileData (a : Agent) (fs : List File) : Agent :=
  { a with files := a.files ++ fs, t := "multipart" }

/-- `escapeQuotes` of `mime/multipart`: backslashes and double quotes are
backslash-escaped in Content-Disposition parameters. -/
def escapeQuotes (s : String) : String :=
  String.mk (s.data.foldr
    (fun c acc =>
      if c = '\\' then '\\' :: '\\' :: acc
      else if c = '\"' then '\\' :: '\"' :: acc
      else c :: acc) [])

/-- The part header written by `multipart.Writer.CreateFormFile`
(Content-Disposition with field and file name, then the fixed
`application/octet-stream` content type, header keys in sorted order as the
multipart writer emits them). -/
def partHeader (fieldname filename : String) : String :=
  "Content-Disposition: form-data; name=\"" ++ escapeQuotes fieldname ++
    "\"; filename=\"" ++ escapeQuotes filename ++
    "\"\r\nContent-Type: application/octet-stream\r\n\r\n"

/-- The parts written by the loop at lines 351-354: `CreatePart` prefixes
the first part with `--boundary CRLF` and every later part with
`CRLF --boundary CRLF`, then the part header, then the raw file bytes. -/
def multipartParts (boundary : String) : List File → Bool → String
  | [], _ => ""
  | f :: fs, isFirst =>
    (if isFirst then "--" ++ boundary ++ "\r\n"
     else "\r\n--" ++ boundary ++ "\r\n") ++
      partHeader f.Fieldname f.Filename ++ f.Data ++
      multipartParts boundary fs false

/-- The full multipart body: all parts in file-list order, then the closing
boundary written by `mw.Close()` (which runs before the request is built). -/
def multipartBody (boundary : String) (files : List File) : String :=
  multipartParts boundary files true ++ "\r\n--" ++ boundary ++ "--\r\n"

/-- `strings.ContainsAny(s, chars)`. -/
def containsAny (s chars : String) : Bool :=
  s.data.any (fun c => chars.data.contains c)

/-- `multipart.Writer.FormDataContentType()`: the boundary is quoted when it
contains one of the special characters, and appended to the fixed prefix. -/
def formDataContentType (boundary : String) : String :=
  if containsAny boundary "()<>@,;:\\\"/[]?= " then
    "multipart/form-data; boundary=" ++ ("\"" ++ boundary ++ "\"")
  else
    "multipart/form-data; boundary=" ++ boundary

/-- Token characters of RFC 7230, as accepted by `net/http`'s method
validation (letters, digits and the listed specials). -/
def isTokenChar (c : Char) : Bool :=
  c.isAlphanum ||
    ([33, 35, 36, 37, 38, 39, 42, 43, 45, 46, 94, 95, 96, 124, 126].map
      Char.ofNat).contains c

/-- `net/http`'s `validMethod`: non-empty and all token characters.
`http.NewRequest` rejects any other method string. -/
def validMethod (m : String) : Bool :=
  m.length > 0 && m.data.all isTokenChar

/-- The error message `http.NewRequest` returns for an invalid method. -/
def invalidMethodMsg (m : String) : String :=
  "net/http: invalid method \"" ++ m ++ "\""

/-- The panic message of a Go nil-pointer dereference. -/
def panicMsg : String :=
  "runtime error: invalid memory address or nil pointer dereference"

/-- Result of `Do`: Go returns the pair `(*http.Response, error)` (either
may independently be nil), or the goroutine panics. -/
inductive DoResult where
  | ret (resp : Option Resp) (err : Option Err)
  | panicked (msg : String)

/-- Body source and content type resolved at the top of `Do`
(lines 346-358): a non-empty file list overrides the body with the
multipart encoding and the content type with the boundary value; otherwise
the body is `a.data` and the content type is `types[a.t]`. -/
def resolveBody (a : Agent) (boundary : String) : Option String × String :=
  match a.files with
  | [] => (a.data, lookupType a.t)
  | f :: fs => (some (multipartBody boundary (f :: fs)), formDataContentType boundary)

/-- Inner loop of the query merge (lines 373-375): `q.Add(k, vv)` for every
value `vv` of a key. -/
def vAddList (v : Values) (k : String) : List String → Values
  | [] => v
  | x :: xs => vAddList (vAdd v k x) k xs

/-- The query merge of lines 371-377: start from the query parsed out of the
request URL (the constructor URL's own parameters) and `Add` every entry of
the mutator map `a.query`.  Per-key result is independent of the Go map
iteration order, which this list order stands in for. -/
def mergeQuery (uq : Values) : Values → Values
  | [] => uq
  | (k, vs) :: rest => mergeQuery (vAddList uq k vs) rest

/-- The wire request assembled by lines 360-389.  `req.Body` wraps the very
reader stored in `a.data`; when a cipher is configured, the cipher block
(lines 397-409) later drains that same reader with `ioutil.ReadAll(a.data)`
and stores the encrypted bytes in a fresh buffer assigned only to `a.data`,
never to `req.Body` — so the bytes the transport can read from the request
body are `""` in that case, while `ContentLength` keeps the length computed
by `http.NewRequest` from the original reader. -/
def reqOf (a : Agent) (boundary : String) : Request :=
  { method := a.m
    headers := vSet a.headerIn "Content-Type" (resolveBody a boundary).2
    query := mergeQuery a.uQuery a.query
    body := if a.cipher.isSome then "" else ((resolveBody a boundary).1).getD ""
    contentLength := (((resolveBody a boundary).1).getD "").length }

/-- `strings.ToLower`, modelled structurally (character-wise lowering). -/
def strToLower (s : String) : String := String.mk (s.data.map Char.toLower)

/-- `return a.processor(resp)` when a processor is set, else
`return resp, err` with nil error (lines 438-442). -/
def finishResp (a : Agent) (resp : Resp) (req : Request) :
    DoResult × List Request :=
  match a.processor with
  | some p => (.ret (p resp).1 (p resp).2, [req])
  | none => (.ret (some resp) none, [req])

/-- Response post-processing of `Do` (lines 411-442), given the transport
outcome.  On a transport error the response is nil, yet the code still
dereferences it in the response-cipher block (line 418) and in the debug
dump (line 434): both are nil-pointer panics.  On success the body is
decrypted when the sentinel header (lowercased) equals "true", then the
response processor runs (the transport error is nil here). -/
def afterDispatch (a : Agent) (result : Except Err Resp) (req : Request) :
    DoResult × List Request :=
  match result with
  | .error e =>
    if a.cipher.isSome then (.panicked panicMsg, [req])
    else if a.debug then (.panicked panicMsg, [req])
    else (.ret none (some e), [req])
  | .ok resp =>
    match a.cipher with
    | some c =>
      if strToLower (headerGet resp.headers "X-CIPHER-ENCODED") = "true" then
        match c.decrypt resp.body with
        | .error e => (.ret none (some e), [req])
        | .ok de =>
          finishResp a
            { resp with headers := vDel resp.headers "X-CIPHER-ENCODED", body := de }
            req
      else finishResp a resp req
    | none => finishResp a resp req

/-- `Agent.Do` (lines 341-443), instrumented with the list of requests
actually handed to the transport (so "no network I/O" is the statement that
this list is empty).  Order kept from the source: sticky-error check first;
multipart resolution; `http.NewRequest` (which validates the method and
stores the body reader); headers, query merge, basic auth, cookies, debug
dump (no observable effect here); then the outbound cipher block — its
`ioutil.ReadAll(a.data)` panics when the body reader is nil, an encryption
failure returns before dispatch, and on success the encrypted bytes go only
into `a.data` (see `reqOf`); finally the dispatch and `afterDispatch`. -/
def Do (a : Agent) (tr : Request → Except Err Resp) (boundary : String) :
    DoResult × List Request :=
  match a.Error with
  | some e => (.ret none (some e), [])
  | none =>
    if validMethod a.m then
      match a.cipher with
      | some c =>
        match (resolveBody a boundary).1 with
        | none => (.panicked panicMsg, [])
        | some s =>
          match c.encrypt s with
          | .error e => (.ret none (some e), [])
          | .ok _ => afterDispatch a (tr (reqOf a boundary)) (reqOf a boundary)
      | none => afterDispatch a (tr (reqOf a boundary)) (reqOf a boundary)
    else (.ret none (some (invalidMethodMsg a.m)), [])

/-- Result of a decode helper: Go returns a status code, a typed value and
an error; a panic in `Do` (or on a nil response body) propagates. -/
inductive HelperResult (α : Type) where
  | panicked (msg : String)
  | ret (code : Nat) (val : α) (err : Option Err)
deriving DecidableEq

/-- `Agent.Bytes` (lines 454-485).  The value is `none` for Go's nil byte
slice and `some s` for a real slice (`some ""` is the non-nil `[]byte{}`
returned together with a `Do` error).  Body reads from the in-memory stub
response never fail, so the `ReadAll` error branches are not reachable
here.  A nil response with a nil error (possible via a response processor)
panics on `resp.Body.Close()`. -/
def Agent.Bytes (a : Agent) (tr : Request → Except Err Resp) (b : String) :
    HelperResult (Option String) :=
  match (Do a tr b).1 with
  | .panicked m => .panicked m
  | .ret ores oerr =>
    match oerr with
    | some e => .ret 500 (some "") (some e)
    | none =>
      match ores with
      | none => .panicked panicMsg
      | some r =>
        if r.statusCode ≠ 200 then .ret r.statusCode none (some r.body)
        else .ret r.statusCode (some r.body) none

/-- `Agent.Text` (lines 487-490): `string(bytes)` of `Bytes`' result
(`string(nil) = ""`). -/
def Agent.Text (a : Agent) (tr : Request → Except Err Resp) (b : String) :
    HelperResult String :=
  match a.Bytes tr b with
  | .panicked m => .panicked m
  | .ret code v err => .ret code (v.getD "") err

/-- `Agent.JSON` (lines 492-518).  The caller's target and the JSON decoder
are external: `objNonNil` says whether `obj != nil`, `decode` is the result
of `json.NewDecoder(body).Decode(&obj)`.  The returned value is whether the
decoder was invoked at all (the target is mutated only in that case).  On a
non-200 status the body is read and returned as the error message
(`fmt.Errorf(string(body))`), and the decoder is never reached. -/
def Agent.JSON (a : Agent) (tr : Request → Except Err Resp) (b : String)
    (objNonNil : Bool) (decode : String → Option Err) : HelperResult Bool :=
  match (Do a tr b).1 with
  | .panicked m => .panicked m
  | .ret ores oerr =>
    match oerr with
    | some e => .ret 500 false (some e)
    | none =>
      match ores with
      | none => .panicked panicMsg
      | some r =>
        if r.statusCode ≠ 200 then .ret r.statusCode false (some r.body)
        else if objNonNil then
          match decode r.body with
          | some e => .ret r.statusCode true (some e)
          | none => .ret r.statusCode true none
        else .ret r.statusCode false none

/-- `Agent.XML` (lines 548-575): identical control flow to `JSON` with the
XML decoder. -/
def Agent.XML (a : Agent) (tr : Request → Except Err Resp) (b : String)
    (objNonNil : Bool) (decode : String → Option Err) : HelperResult Bool :=
  match (Do a tr b).1 with
  | .panicked m => .panicked m
  | .ret ores oerr =>
    match oerr with
    | some e => .ret 500 false (some e)
    | none =>
      match ores with
      | none => .panicked panicMsg
      | some r =>
        if r.statusCode ≠ 200 then .ret r.statusCode false (some r.body)
        else if objNonNil then
          match decode r.body with
          | some e => .ret r.statusCode true (some e)
          | none => .ret r.statusCode true none
        else .ret r.statusCode false none

/-- `Agent.JSONPB` (lines 520-546): identical control flow to `JSON` with
the jsonpb unmarshaller. -/
def Agent.JSONPB (a : Agent) (tr : Request → Except Err Resp) (b : String)
    (objNonNil : Bool) (decode : String → Option Err) : HelperResult Bool :=
  match (Do a tr b).1 with
  | .panicked m => .panicked m
  | .ret ores oerr =>
    match oerr with
    | some e => .ret 500 false (some e)
    | none =>
      match ores with
      | none => .panicked panicMsg
      | some r =>
        if r.statusCode ≠ 200 then .ret r.statusCode false (some r.body)
        else if objNonNil then
          match decode r.body with
          | some e => .ret r.statusCode true (some e)
          | none => .ret r.statusCode true none
        else .ret r.statusCode false none

/-! Concrete fixtures used to instantiate theorems and witnesses. -/

/-- A parsed URL carrying the literal query `a=0&u=x`. -/
def u0 : ParsedURL := { query := [("a", ["0"]), ("u", ["x"])] }

/-- A stub transport echoing the request body back with status 200. -/
def trEcho : Request → Except Err Resp := fun req =>
  .ok { statusCode := 200, status := "200 OK", headers := [], body := req.body }

/-- A stub transport answering 404 with body "not found". -/
def tr404 : Request → Except Err Resp := fun _ =>
  .ok { statusCode := 404, status := "404 Not Found", headers := [], body := "not found" }

/-- A stub transport failing like a refused TCP connection. -/
def trFail : Request → Except Err Resp := fun _ =>
  .error "dial tcp 127.0.0.1:80: connect: connection refused"

/-- String reversal, used to build a concrete involutive cipher. -/
def revString (s : String) : String := String.mk s.data.reverse

/-- A concrete total cipher: both directions reverse the bytes. -/
def cipherRev : Cipher :=
  { encrypt := fun s => .ok (revString s)
    decrypt := fun s => .ok (revString s) }

/-- A decoder stub that always succeeds. -/
def decodeOk : String → Option Err := fun _ => none

/-- A plain successfully-constructed GET agent on `u0`. -/
def agent0 : Agent := (URLok u0).Method GET

/-- `agent0` with a sticky error already recorded. -/
def agentSticky : Agent := { agent0 with Error := some "boom" }

/-- A POST agent with body "hello" and the reversing cipher configured. -/
def agentC2 : Agent :=
  { (URLok u0).Method POST with data := some "hello", t := "json", cipher := some cipherRev }

/-- `agent0` after `QueryAdd("a","1")` then `QueryAdd("a","2")`. -/
def agent3 : Agent := (agent0.QueryAdd "a" "1").QueryAdd "a" "2"

/-- A POST agent configured with both a JSON body and one file. -/
def agent4 : Agent :=
  ((URLok u0).Method POST |>.JSONData "null" none).FileData
    [{ Filename := "f.txt", Fieldname := "file", Data := "DATA" }]

/-- `agent0` with the method overwritten by `ContentType("json")`. -/
def agent6 : Agent := agent0.ContentType "json"

/-- A POST agent with body "x" and the reversing cipher (for the
transport-failure path). -/
def agent9c : Agent :=
  { (URLok u0).Method POST with data := some "x", cipher := some cipherRev }

/-- `agent0` with debug enabled. -/
def agent9d : Agent := agent0.Debug true

/-! Lemmas about the `url.Values` model. -/

theorem vGet_vAdd_same (v : Values) (k x : String) :
    vGet (vAdd v k x) k = vGet v k ++ [x] := by
  induction v with
  | nil => simp [vAdd, vGet]
  | cons p rest ih =>
    obtain ⟨k', vs⟩ := p
    by_cases h : k' = k
    · simp [vAdd, vGet, h]
    · simp [vAdd, vGet, h, ih]

theorem vGet_vAdd_ne (v : Values) (k x k' : String) (h : ¬ k = k') :
    vGet (vAdd v k x) k' = vGet v k' := by
  induction v with
  | nil => simp [vAdd, vGet, h]
  | cons p rest ih =>
    obtain ⟨k'', vs⟩ := p
    by_cases h2 : k'' = k
    · simp [vAdd, vGet, h2, h]
    · by_cases h3 : k'' = k'
      · simp [vAdd, vGet, h2, h3, Ne.symm h]
      · simp [vAdd, vGet, h2, h3, ih]

theorem vGet_vSet_same (v : Values) (k x : String) :
    vGet (vSet v k x) k = [x] := by
  induction v with
  | nil => simp [vSet, vGet]
  | cons p rest ih =>
    obtain ⟨k', vs⟩ := p
    by_cases h : k' = k
    · simp [vSet, vGet, h]
    · simp [vSet, vGet, h, ih]

theorem not_mem_keys_vDel (v : Values) (k : String) :
    k ∉ (vDel v k).map Prod.fst := by
  intro hmem
  obtain ⟨p, hp, hpk⟩ := List.mem_map.mp hmem
  have hfilt := List.of_mem_filter hp
  simp [hpk] at hfilt

theorem vGet_vAddList_same (xs : List String) (v : Values) (k : String) :
    vGet (vAddList v k xs) k = vGet v k ++ xs := by
  induction xs generalizing v with
  | nil => simp [vAddList]
  | cons x xs ih => simp [vAddList, ih, vGet_vAdd_same]

theorem vGet_vAddList_ne (xs : List String) (v : Values) (k k' : String)
    (h : ¬ k = k') : vGet (vAddList v k xs) k' = vGet v k' := by
  induction xs generalizing v with
  | nil => simp [vAddList]
  | cons x xs ih => simp [vAddList, ih, vGet_vAdd_ne _ _ _ _ h]

theorem vGet_of_not_mem_keys (v : Values) (k : String)
    (h : k ∉ v.map Prod.fst) : vGet v k = [] := by
  induction v with
  | nil => rfl
  | cons p rest ih =>
    obtain ⟨k', vs⟩ := p
    simp only [List.map_cons, List.mem_cons, not_or] at h
    simp only [vGet]
    rw [if_neg (fun hh : k' = k => h.1 hh.symm)]
    exact ih h.2

theorem vGet_mergeQuery (uq q : Values) (hq : KeysNodup q) (k : String) :
    vGet (mergeQuery uq q) k = vGet uq k ++ vGet q k := by
  induction q generalizing uq with
  | nil => simp [mergeQuery, vGet]
  | cons p rest ih =>
    obtain ⟨k', vs⟩ := p
    unfold KeysNodup at hq
    simp [List.nodup_cons] at hq
    by_cases h : k' = k
    · subst h
      rw [mergeQuery, ih _ hq.2, vGet_vAddList_same,
          vGet_of_not_mem_keys rest k' (by simpa using hq.1)]
      simp [vGet]
    · rw [mergeQuery, ih _ hq.2, vGet_vAddList_ne _ _ _ _ h]
      simp [vGet, h]

theorem vGet_mergeQuery_of_not_mem (uq q : Values) (k : String)
    (h : k ∉ q.map Prod.fst) : vGet (mergeQuery uq q) k = vGet uq k := by
  induction q generalizing uq with
  | nil => rfl
  | cons p rest ih =>
    obtain ⟨k', vs⟩ := p
    simp only [List.map_cons, List.mem_cons, not_or] at h
    rw [mergeQuery, ih _ h.2, vGet_vAddList_ne _ _ _ _ (fun hh => h.1 hh.symm)]

/-! Lemmas about the pipeline. -/

theorem finishResp_snd (a : Agent) (resp : Resp) (req : Request) :
    (finishResp a resp req).2 = [req] := by
  cases h : a.processor <;> simp [finishResp, h]

theorem afterDispatch_snd (a : Agent) (r : Except Err Resp) (req : Request) :
    (afterDispatch a r req).2 = [req] := by
  cases r with
  | error e =>
    by_cases h1 : a.cipher.isSome <;> by_cases h2 : a.debug <;>
      simp [afterDispatch, h1, h2]
  | ok resp =>
    cases h : a.cipher with
    | none => simp [afterDispatch, h, finishResp_snd]
    | some c =>
      by_cases ht : strToLower (headerGet resp.headers "X-CIPHER-ENCODED") = "true"
      · cases hd : c.decrypt resp.body <;>
          simp [afterDispatch, h, ht, hd, finishResp_snd]
      · simp [afterDispatch, h, ht, finishResp_snd]

theorem Do_snd (a : Agent) (tr : Request → Except Err Resp) (b : String)
    (hE : a.Error = none) (hc : a.cipher = none) (hm : validMethod a.m = true) :
    (Do a tr b).2 = [reqOf a b] := by
  simp [Do, hE, hc, hm, afterDispatch_snd]

theorem Do_stub_fst (a : Agent) (resp : Resp) (b : String)
    (hE : a.Error = none) (hc : a.cipher = none) (hp : a.processor = none)
    (hm : validMethod a.m = true) :
    (Do a (fun _ => Except.ok resp) b).1 = .ret (some resp) none := by
  simp [Do, hE, hc, hm, afterDispatch, finishResp, hp]

theorem formDataContentType_length (b : String) :
    30 ≤ (formDataContentType b).length := by
  have h30 : ("multipart/form-data; boundary=" : String).length = 30 := rfl
  have h1 : ("\"" : String).length = 1 := rfl
  unfold formDataContentType
  split <;> simp [String.length_append, h30, h1]

/-- C1: once the sticky error field of an Agent is non-nil, `Do` returns
exactly that error with a nil response, and no request is assembled or
handed to the transport (the dispatched-request list is empty). -/
theorem c1_sticky_error_short_circuits (a : Agent) (e : Err)
    (tr : Request → Except Err Resp) (b : String) (h : a.Error = some e) :
    Do a tr b = (.ret none (some e), []) := by
  simp [Do, h]

theorem c1_witness :
    Do agentSticky trEcho "B" = (.ret none (some "boom"), []) :=
  c1_sticky_error_short_circuits agentSticky "boom" trEcho "B" rfl

/-- C2, evaluated at the failing input: an agent with the reversing cipher
and body "hello" dispatches a request whose body is `""` — the request is
built (line 360) before the cipher block (lines 397-409), which drains the
very reader the request body wraps and stores the encrypted bytes only in
`a.data`; encrypting the original body would have given "olleh", which
never reaches the wire, so decrypting the captured wire body cannot
reproduce the original. -/
theorem c2_cipher_body_never_sent :
    ((Do agentC2 trEcho "B").2.map Request.body = [""])
    ∧ cipherRev.encrypt "hello" = .ok "olleh"
    ∧ ("" : String) ≠ "olleh" := by
  refine ⟨by decide, rfl, by decide⟩

/-- C3: the query of the dispatched request is, per key, the values parsed
from the constructor URL followed by the values added through the mutators
(a union keeping repeated keys: two `QueryAdd("a",·)` calls contribute both
values); `QueryDel` rewrites only the mutator map, leaves the URL query
untouched, and the merged query still contains every original-URL value of
the deleted key. -/
theorem c3_query_union (a : Agent) (tr : Request → Except Err Resp)
    (b k : String) (hE : a.Error = none) (hc : a.cipher = none)
    (hm : validMethod a.m = true) (hq : KeysNodup a.query) :
    ((Do a tr b).2.map (fun r => vGet r.query k)
        = [vGet a.uQuery k ++ vGet a.query k])
    ∧ vGet ((a.QueryAdd "a" "1").QueryAdd "a" "2").query "a"
        = vGet a.query "a" ++ ["1", "2"]
    ∧ (a.QueryDel k).uQuery = a.uQuery
    ∧ vGet (mergeQuery (a.QueryDel k).uQuery (a.QueryDel k).query) k
        = vGet a.uQuery k := by
  refine ⟨?_, ?_, rfl, ?_⟩
  · rw [Do_snd a tr b hE hc hm]
    simp [reqOf, vGet_mergeQuery a.uQuery a.query hq]
  · simp [Agent.QueryAdd, vGet_vAdd_same]
  · simp only [Agent.QueryDel]
    exact vGet_mergeQuery_of_not_mem a.uQuery (vDel a.query k) k
      (not_mem_keys_vDel a.query k)

theorem c3_witness :
    ((Do agent3 trEcho "B").2.map (fun r => vGet r.query "a")
        = [vGet agent3.uQuery "a" ++ vGet agent3.query "a"])
    ∧ vGet ((agent3.QueryAdd "a" "1").QueryAdd "a" "2").query "a"
        = vGet agent3.query "a" ++ ["1", "2"]
    ∧ (agent3.QueryDel "a").uQuery = agent3.uQuery
    ∧ vGet (mergeQuery (agent3.QueryDel "a").uQuery (agent3.QueryDel "a").query) "a"
        = vGet agent3.uQuery "a" :=
  c3_query_union agent3 trEcho "B" "a" rfl rfl (by decide) (by decide)

/-- C4: whenever the file list is non-empty when `Do` runs — whatever
body-encoding calls were made before, in any order, since the hypothesis
constrains neither the tag nor the body reader — the dispatched request
carries the multipart encoding of the files (one part per file, field name,
filename and raw bytes, in list order, by definition of `multipartBody`),
its Content-Type header is the multipart boundary value, and that value is
never the `application/json` MIME type. -/
theorem c4_files_force_multipart (a : Agent) (tr : Request → Except Err Resp)
    (b : String) (hE : a.Error = none) (hc : a.cipher = none)
    (hm : validMethod a.m = true) (hf : a.files ≠ []) :
    ((Do a tr b).2.map Request.body = [multipartBody b a.files])
    ∧ ((Do a tr b).2.map (fun r => vGet r.headers "Content-Type")
        = [[formDataContentType b]])
    ∧ formDataContentType b ≠ lookupType "json" := by
  obtain ⟨f, fs, hffs⟩ : ∃ f fs, a.files = f :: fs := by
    cases h : a.files with
    | nil => exact absurd h hf
    | cons f fs => exact ⟨f, fs, rfl⟩
  refine ⟨?_, ?_, ?_⟩
  · rw [Do_snd a tr b hE hc hm]
    simp [reqOf, resolveBody, hffs, hc]
  · rw [Do_snd a tr b hE hc hm]
    simp [reqOf, resolveBody, hffs, vGet_vSet_same]
  · intro hcontra
    have hlen := congrArg String.length hcontra
    rw [show (lookupType "json").length = 16 from rfl] at hlen
    have h30 := formDataContentType_length b
    omega

theorem c4_witness :
    ((Do agent4 trEcho "B").2.map Request.body = [multipartBody "B" agent4.files])
    ∧ ((Do agent4 trEcho "B").2.map (fun r => vGet r.headers "Content-Type")
        = [[formDataContentType "B"]])
    ∧ formDataContentType "B" ≠ lookupType "json" :=
  c4_files_force_multipart agent4 trEcho "B" rfl rfl (by decide) (by decide)

/-- C5: when the transport answers with a status other than 200 (every
non-success status in particular), the `JSON` helper returns that status
code with a non-nil error (the body surfaced as the message) and the
decoder is never invoked — the caller's target is untouched (the attempted
flag is `false`). -/
theorem c5_json_non_success (a : Agent) (resp : Resp) (b : String)
    (objNonNil : Bool) (decode : String → Option Err)
    (hE : a.Error = none) (hc : a.cipher = none) (hp : a.processor = none)
    (hm : validMethod a.m = true) (hs : resp.statusCode ≠ 200) :
    a.JSON (fun _ => Except.ok resp) b objNonNil decode
      = .ret resp.statusCode false (some resp.body) := by
  unfold Agent.JSON
  rw [Do_stub_fst a resp b hE hc hp hm]
  simp [hs]

theorem c5_witness :
    agent0.JSON tr404 "B" true decodeOk = .ret 404 false (some "not found") :=
  c5_json_non_success agent0
    { statusCode := 404, status := "404 Not Found", headers := [], body := "not found" }
    "B" true decodeOk rfl rfl rfl (by decide) (by decide)

/-- C6, evaluated at the failing input: `ContentType("json")` on a GET agent
overwrites the METHOD field with the MIME value (line 227 assigns `a.m`),
so the method is "application/json" instead of GET, and `Do` then fails
inside `http.NewRequest` with the invalid-method error — contradicting the
claim that no configuration call other than `Method` changes the request
method. -/
theorem c6_contenttype_overwrites_method :
    Get (Except.ok u0) = .ok agent0
    ∧ agent6.m = "application/json"
    ∧ Do agent6 trEcho "B"
        = (.ret none (some "net/http: invalid method \"application/json\""), []) := by
  refine ⟨rfl, rfl, ?_⟩
  rfl

/-- C7, evaluated at the failing input: a freshly constructed agent with no
body-encoding call has tag field `"text/html"` (the constructor stored the
MIME value, line 77), the second table lookup in `Do` (line 346) misses, and
the dispatched Content-Type header is the empty string, not `text/html`;
after a body-encoding call such as `JSONData` the header is the table's
MIME value as the claim states. -/
theorem c7_default_content_type_is_empty :
    agent0.t = "text/html"
    ∧ lookupType agent0.t = ""
    ∧ ((Do agent0 trEcho "B").2.map (fun r => vGet r.headers "Content-Type")
        = [[""]])
    ∧ ((Do (agent0.JSONData "null" none) trEcho "B").2.map
        (fun r => vGet r.headers "Content-Type") = [["application/json"]]) := by
  refine ⟨rfl, rfl, rfl, rfl⟩

/-- C8, evaluated at the failing input: a `url.Parse` failure makes the
constructor panic (line 72) instead of returning an Agent carrying the
parse error in its sticky error field. -/
theorem c8_url_parse_failure_panics :
    URL (Except.error "parse \"http://example.com/\\x00\": net/url: invalid control character in URL")
      = .panicked "parse \"http://example.com/\\x00\": net/url: invalid control character in URL" := rfl

/-- C9, evaluated at the failing inputs: when the transport fails (error and
nil response), an agent with a cipher configured panics at line 418
(`resp.Header.Get` on the nil response) and an agent with debug enabled
panics at line 434 (`httputil.DumpResponse` on the nil response); only a
plain agent propagates the transport error unmodified, as the third
conjunct shows. -/
theorem c9_transport_error_nil_dereference :
    (Do agent9c trFail "B").1 = .panicked panicMsg
    ∧ (Do agent9d trFail "B").1 = .panicked panicMsg
    ∧ Do agent0 trFail "B"
        = (.ret none (some "dial tcp 127.0.0.1:80: connect: connection refused"),
           [reqOf agent0 "B"]) := by
  refine ⟨rfl, rfl, rfl⟩

/-- C10: every decode helper classifies any status other than exactly 200 —
201 and 204 included — as an error (the returned error is non-nil), and the
three body decoders invoke their decoder only when the status is exactly
200. -/
theorem c10_only_status_200_decoded (a : Agent) (tr : Request → Except Err Resp)
    (b : String) (objNonNil : Bool) (dj dx dp : String → Option Err) :
    (∀ code v err, a.Bytes tr b = .ret code v err → code ≠ 200 → err ≠ none)
    ∧ (∀ code v err, a.Text tr b = .ret code v err → code ≠ 200 → err ≠ none)
    ∧ (∀ code att err, a.JSON tr b objNonNil dj = .ret code att err →
        (code ≠ 200 → err ≠ none) ∧ (att = true → code = 200))
    ∧ (∀ code att err, a.XML tr b objNonNil dx = .ret code att err →
        (code ≠ 200 → err ≠ none) ∧ (att = true → code = 200))
    ∧ (∀ code att err, a.JSONPB tr b objNonNil dp = .ret code att err →
        (code ≠ 200 → err ≠ none) ∧ (att = true → code = 200)) := by
  have hb : ∀ code v err, a.Bytes tr b = .ret code v err → code ≠ 200 →
      err ≠ none := by
    intro code v err h hne
    unfold Agent.Bytes at h
    cases hdo : (Do a tr b).1 with
    | panicked m => rw [hdo] at h; simp at h
    | ret ores oerr =>
      rw [hdo] at h
      cases oerr with
      | some e =>
        simp at h
        obtain ⟨-, -, h3⟩ := h
        subst h3; simp
      | none =>
        cases ores with
        | none => simp at h
        | some r =>
          by_cases hs : r.statusCode = 200
          · simp [hs] at h
            obtain ⟨h1, -, -⟩ := h
            subst h1
            exact absurd rfl hne
          · simp [hs] at h
            obtain ⟨-, -, h3⟩ := h
            subst h3; simp
  have hj : ∀ (dec : String → Option Err) code att err,
      a.JSON tr b objNonNil dec = .ret code att err →
      (code ≠ 200 → err ≠ none) ∧ (att = true → code = 200) := by
    intro dec code att err h
    unfold Agent.JSON at h
    cases hdo : (Do a tr b).1 with
    | panicked m => rw [hdo] at h; simp at h
    | ret ores oerr =>
      rw [hdo] at h
      cases oerr with
      | some e =>
        simp at h
        obtain ⟨h1, h2, h3⟩ := h
        subst h1; subst h2; subst h3
        exact ⟨fun _ => by simp, fun hatt => by simp at hatt⟩
      | none =>
        cases ores with
        | none => simp at h
        | some r =>
          by_cases hs : r.statusCode = 200
          · simp [hs] at h
            cases objNonNil with
            | false =>
              simp at h
              obtain ⟨h1, h2, h3⟩ := h
              subst h1; subst h2; subst h3
              exact ⟨fun hx => absurd rfl hx, fun hatt => by simp at hatt⟩
            | true =>
              cases hdec : dec r.body with
              | some e2 =>
                rw [hdec] at h; simp at h
                obtain ⟨h1, h2, h3⟩ := h
                subst h1; subst h2; subst h3
                exact ⟨fun hx => absurd rfl hx, fun _ => rfl⟩
              | none =>
                rw [hdec] at h; simp at h
                obtain ⟨h1, h2, h3⟩ := h
                subst h1; subst h2; subst h3
                exact ⟨fun hx => absurd rfl hx, fun _ => rfl⟩
          · simp [hs] at h
            obtain ⟨h1, h2, h3⟩ := h
            subst h1; subst h2; subst h3
            exact ⟨fun _ => by simp, fun hatt => by simp at hatt⟩
  refine ⟨hb, ?_, hj dj, hj dx, hj dp⟩
  intro code v err h hne
  unfold Agent.Text at h
  cases hby : a.Bytes tr b with
  | panicked m => rw [hby] at h; simp at h
  | ret code' v' err' =>
    rw [hby] at h; simp at h
    obtain ⟨h1, -, h3⟩ := h
    subst h1; subst h3
    exact hb code' v' err' hby hne

theorem c10_witness : (some "not found" : Option Err) ≠ none :=
  ((c10_only_status_200_decoded agent0 tr404 "B" true decodeOk decodeOk
      decodeOk).2.2.1 404 false (some "not found") (by decide)).1 (by decide)
